import Mathlib

/-
Verification of the VocalCanvas session transcription state machine and
streaming-merge engine, shallowly embedded from the TypeScript sources
(src/types.ts, src/App.tsx, src/unnamed/part_000).
-/

namespace VocalCanvas

/-- One utterance fragment, from src/types.ts `TranscriptionSnippet`. -/
structure TranscriptionSnippet where
  id : String
  text : String
  timestamp : Nat
  isFinal : Bool
deriving Repr, DecidableEq

/-- Session lifecycle status, from src/types.ts `RecordingSession.status`. -/
inductive SessionStatus where
  | idle
  | transcribing
  | formatting
  | completed
  | error
deriving Repr, DecidableEq

/-- One recording or uploaded-file processing record, from src/types.ts
`RecordingSession`.  The `lastEdited` field of the interface is never
assigned by src/App.tsx and no claim concerns it, so it is omitted. -/
structure RecordingSession where
  id : String
  name : String
  snippets : List TranscriptionSnippet
  formattedText : Option String
  status : SessionStatus
  timestamp : Nat
deriving Repr, DecidableEq

/-- The application state, from src/types.ts `AppState`. -/
structure AppState where
  isRecording : Bool
  sessions : List RecordingSession
  activeSessionId : Option String
  error : Option String
deriving Repr, DecidableEq

/-- Update every session whose id matches, as `updateSession` in src/App.tsx
lines 24-29 does via `sessions.map(s => s.id === id ? (merged) : s)`.
The partial-object merge `(... s, ... updates)` is passed as `f`. -/
def updateSessions (sessions : List RecordingSession) (sid : String)
    (f : RecordingSession → RecordingSession) : List RecordingSession :=
  sessions.map (fun s => if s.id = sid then f s else s)

/-- State-level `updateSession` of src/App.tsx lines 24-29. -/
def updateSession (st : AppState) (sid : String)
    (f : RecordingSession → RecordingSession) : AppState :=
  { st with sessions := updateSessions st.sessions sid f }

/-- The streaming merge step on one snippet list, from the body of the
`createLiveSession` onTranscription callback, src/App.tsx lines 60-66:
read the last element; if it exists and is not final, append the incoming
text to it with a separating space and overwrite its final flag; otherwise
push a fresh snippet. -/
def mergeSnippet (snippets : List TranscriptionSnippet) (text : String)
    (isFinal : Bool) (freshId : String) (now : Nat) : List TranscriptionSnippet :=
  match snippets.getLast? with
  | some last =>
      if last.isFinal then
        snippets ++ [⟨freshId, text, now, isFinal⟩]
      else
        snippets.dropLast ++
          [{ last with text := last.text ++ " " ++ text, isFinal := isFinal }]
  | none => snippets ++ [⟨freshId, text, now, isFinal⟩]

/-- JavaScript `Array.prototype.findIndex`, as an `Option Nat`
(the source compares the result with -1 before using it). -/
def findIndex (p : RecordingSession → Bool) : List RecordingSession → Option Nat
  | [] => none
  | s :: rest => if p s then some 0 else (findIndex p rest).map (fun n => n + 1)

/-- Merge one live event into the first session whose id equals the bound id,
leaving every other session untouched; sessions list form of the
onTranscription callback of src/App.tsx lines 54-68, which does
`findIndex(s => s.id === id)` and mutates only that index (returning the
previous state when the index is -1). -/
def mergeIntoSessions (bid : String) (text : String) (isFinal : Bool)
    (freshId : String) (now : Nat) : List RecordingSession → List RecordingSession
  | [] => []
  | s :: rest =>
      if s.id = bid then
        { s with snippets := mergeSnippet s.snippets text isFinal freshId now } :: rest
      else
        s :: mergeIntoSessions bid text isFinal freshId now rest

/-- The patch applied to the bound session by one live event. -/
def mergePatch (t : String) (f : Bool) (fid : String) (now : Nat)
    (s : RecordingSession) : RecordingSession :=
  { s with snippets := mergeSnippet s.snippets t f fid now }

/-- The onTranscription callback of src/App.tsx lines 54-68.  `bid` is the
session id captured by the closure when recording started. -/
def receiveSnippetEvent (bid : String) (text : String) (isFinal : Bool)
    (freshId : String) (now : Nat) (st : AppState) : AppState :=
  { st with sessions := mergeIntoSessions bid text isFinal freshId now st.sessions }

/-- The lookup `state.sessions.find(s => s.id === id)`. -/
def findSession (st : AppState) (sid : String) : Option RecordingSession :=
  st.sessions.find? (fun s => s.id = sid)

/-- JavaScript `array.join(" ")`. -/
def joinSpace (l : List String) : String := String.intercalate " " l

/-- JavaScript `array.join("\n")`. -/
def joinNewline (l : List String) : String := String.intercalate "\n" l

/-- JavaScript `a || b` on a nullable string: the empty string is falsy. -/
def jsOrString (a : Option String) (b : String) : String :=
  match a with
  | some t => if t = "" then b else t
  | none => b

/-- The exported body built by `download`, src/App.tsx line 148:
`session.formattedText || session.snippets.map(s => s.text).join("\n")`. -/
def renderContent (session : RecordingSession) : String :=
  jsOrString session.formattedText (joinNewline (session.snippets.map (fun s => s.text)))

/-- Status patch `\x7b status: 'formatting' \x7d`. -/
def markFormatting (s : RecordingSession) : RecordingSession :=
  { s with status := SessionStatus.formatting }

/-- Status patch `\x7b status: 'idle' \x7d`. -/
def markIdle (s : RecordingSession) : RecordingSession :=
  { s with status := SessionStatus.idle }

/-- Status patch `\x7b status: 'error' \x7d`. -/
def markError (s : RecordingSession) : RecordingSession :=
  { s with status := SessionStatus.error }

/-- Patch storing a formatting result, src/App.tsx line 141. -/
def completeSession (formatted : String) (s : RecordingSession) : RecordingSession :=
  { s with formattedText := some formatted, status := SessionStatus.completed }

/-- Synchronous prefix of `handleSmartFormat`, src/App.tsx lines 134-140:
look the session up; if absent return unchanged and issue no format call;
otherwise set its status to `formatting` and issue the external format call
with the space-joined snippet texts of the session as read before the
update.  The second component is the text sent to `formatTranscription`
(`none` when no call is issued). -/
def handleSmartFormatStart (sid : String) (st : AppState) : AppState × Option String :=
  match findSession st sid with
  | none => (st, none)
  | some session =>
      (updateSession st sid markFormatting,
       some (joinSpace (session.snippets.map (fun s => s.text))))

/-- Completion of `handleSmartFormat`, src/App.tsx lines 140-144: on success
store the formatted text and move to `completed`; on a thrown error move to
`error`. -/
def handleSmartFormatFinish (sid : String) (result : Except Unit String)
    (st : AppState) : AppState :=
  match result with
  | Except.ok formatted => updateSession st sid (completeSession formatted)
  | Except.error _ => updateSession st sid markError

/-- Whole sequential run of `handleSmartFormat`, src/App.tsx lines 134-145,
with the external `formatTranscription` contract passed as an oracle. -/
def handleSmartFormat (fmt : String → Except Unit String) (sid : String)
    (st : AppState) : AppState :=
  match handleSmartFormatStart sid st with
  | (st1, none) => st1
  | (st1, some text) => handleSmartFormatFinish sid (fmt text) st1

/-- State written by `startRecording`, src/App.tsx lines 36-51: prepend a
fresh `transcribing` session, make it active, set the recording flag. -/
def liveStart (sid : String) (nm : String) (t0 : Nat) (st : AppState) : AppState :=
  { st with
    isRecording := true,
    sessions :=
      { id := sid, name := nm, snippets := [], formattedText := none,
        status := SessionStatus.transcribing, timestamp := t0 } :: st.sessions,
    activeSessionId := some sid }

/-- The `stopRecording` handler, src/App.tsx lines 88-97: if a session is
active, set it to `idle`, run `handleSmartFormat` on it, and clear the
recording flag (audio teardown is external and stateless here). -/
def stopRecording (fmt : String → Except Unit String) (st : AppState) : AppState :=
  match st.activeSessionId with
  | none => { st with isRecording := false }
  | some sid =>
      let st1 := updateSession st sid markIdle
      let st2 := handleSmartFormat fmt sid st1
      { st2 with isRecording := false }

/-- An uploaded file as the pipeline sees it (name and MIME type; the byte
payload is abstracted into the transcription oracle). -/
structure FileInput where
  name : String
  mimeType : String
deriving Repr, DecidableEq

/-- A fresh file session, src/App.tsx lines 100-107. -/
def mkFileSession (fid : String) (fname : String) (now : Nat) : RecordingSession :=
  { id := fid, name := fname, snippets := [], formattedText := none,
    status := SessionStatus.transcribing, timestamp := now }

/-- The session array built by `Array.from(files).map(...)` in
src/App.tsx lines 100-107; `ids i` is the random id drawn for file `i`. -/
def mkFileSessions (ids : Nat → String) (now : Nat) :
    Nat → List FileInput → List RecordingSession
  | _, [] => []
  | i, f :: fs => mkFileSession (ids i) f.name now :: mkFileSessions ids now (i + 1) fs

/-- The single final snippet stored on file-transcription success,
src/App.tsx line 124. -/
def fileSnippet (raw : String) (now : Nat) : TranscriptionSnippet :=
  ⟨"1", raw, now, true⟩

/-- Success patch of the file pipeline, src/App.tsx lines 123-127. -/
def completeFileSession (raw : String) (formatted : String) (now : Nat)
    (s : RecordingSession) : RecordingSession :=
  { s with snippets := [fileSnippet raw now], formattedText := some formatted,
           status := SessionStatus.completed }

/-- One iteration of the `processFiles` loop, src/App.tsx lines 111-131:
transcribe, then format; on full success store the single raw snippet, the
formatted text and `completed` in one update; on any thrown step mark the
session `error`.  `tr` and `fm` are the external call oracles. -/
def processFileStep (tr : FileInput → Except Unit String)
    (fm : String → Except Unit String) (now : Nat) (sid : String)
    (file : FileInput) (st : AppState) : AppState :=
  match tr file with
  | Except.error _ => updateSession st sid markError
  | Except.ok raw =>
      match fm raw with
      | Except.error _ => updateSession st sid markError
      | Except.ok formatted => updateSession st sid (completeFileSession raw formatted now)

/-- The `for (let i = 0; ...)` loop of `processFiles`, src/App.tsx
lines 111-131; `i` tracks the index so that `sessions[i].id = ids i`. -/
def processFilesLoop (tr : FileInput → Except Unit String)
    (fm : String → Except Unit String) (now : Nat) (ids : Nat → String) :
    Nat → List FileInput → AppState → AppState
  | _, [], st => st
  | i, f :: fs, st =>
      processFilesLoop tr fm now ids (i + 1) fs (processFileStep tr fm now (ids i) f st)

/-- The whole `processFiles`, src/App.tsx lines 99-132.  The result is
`none` when the initial `setState` updater throws: with an empty file list
`sessions[0].id` dereferences the first element of an empty array, so no
state is produced. -/
def processFiles (ids : Nat → String) (tr : FileInput → Except Unit String)
    (fm : String → Except Unit String) (now : Nat) (files : List FileInput)
    (st : AppState) : Option AppState :=
  let newSessions := mkFileSessions ids now 0 files
  match newSessions.head? with
  | none => none
  | some first =>
      let st1 := { st with sessions := newSessions ++ st.sessions,
                           activeSessionId := some first.id }
      some (processFilesLoop tr fm now ids 0 files st1)

/-- The library delete button handler, src/App.tsx lines 234-239: filter the
session out of the list; `activeSessionId` is not touched. -/
def deleteSessionClick (st : AppState) (sid : String) : AppState :=
  { st with sessions := st.sessions.filter (fun x => x.id ≠ sid) }

/-- The `removeSession` of src/unnamed/part_000 lines 195-201: filter the
session out and, when the removed id was active, reassign the pointer to
`prev.sessions[0]?.id || null` — read from the list BEFORE filtering. -/
def removeSession (st : AppState) (sid : String) : AppState :=
  { st with
    sessions := st.sessions.filter (fun s => s.id ≠ sid),
    activeSessionId :=
      if st.activeSessionId = some sid then
        match st.sessions.head? with
        | some s0 => if s0.id = "" then none else some s0.id
        | none => none
      else st.activeSessionId }

/-- One live transcription event together with the fresh id and clock value
drawn when it is merged. -/
structure LiveEvent where
  text : String
  isFinal : Bool
  freshId : String
  now : Nat
deriving Repr, DecidableEq

/-- Fold a sequence of live events into a snippet list starting empty. -/
def applyEvents (events : List LiveEvent) : List TranscriptionSnippet :=
  events.foldl (fun acc e => mergeSnippet acc e.text e.isFinal e.freshId e.now) []

/-- Every snippet except possibly the last one is final. -/
def allButLastFinal (l : List TranscriptionSnippet) : Bool :=
  l.dropLast.all (fun s => s.isFinal)

/-- Sessions of a state carrying a given id, in order. -/
def sessionsWithId (st : AppState) (sid : String) : List RecordingSession :=
  st.sessions.filter (fun s => s.id = sid)

theorem mergeSnippet_concat (as : List TranscriptionSnippet) (a : TranscriptionSnippet)
    (t : String) (f : Bool) (fid : String) (now : Nat) :
    mergeSnippet (as ++ [a]) t f fid now =
      if a.isFinal then (as ++ [a]) ++ [⟨fid, t, now, f⟩]
      else as ++ [{ a with text := a.text ++ " " ++ t, isFinal := f }] := by
  unfold mergeSnippet
  rw [List.getLast?_concat, List.dropLast_concat]

theorem allButLastFinal_append_single (l : List TranscriptionSnippet)
    (x : TranscriptionSnippet) :
    allButLastFinal (l ++ [x]) = l.all (fun s => s.isFinal) := by
  unfold allButLastFinal
  rw [List.dropLast_concat]

theorem allButLastFinal_mergeSnippet (l : List TranscriptionSnippet) (t : String)
    (f : Bool) (fid : String) (now : Nat) (h : allButLastFinal l = true) :
    allButLastFinal (mergeSnippet l t f fid now) = true := by
  rcases l.eq_nil_or_concat with rfl | ⟨as, a, rfl⟩
  · rfl
  · rw [List.concat_eq_append] at h ⊢
    rw [allButLastFinal_append_single] at h
    rw [mergeSnippet_concat]
    cases hfin : a.isFinal
    · rw [if_neg (by simp), allButLastFinal_append_single]
      exact h
    · rw [if_pos rfl, allButLastFinal_append_single, List.all_append]
      simp [h, hfin]

theorem applyEvents_invariant_aux (events : List LiveEvent)
    (init : List TranscriptionSnippet) (h : allButLastFinal init = true) :
    allButLastFinal
      (events.foldl (fun acc e => mergeSnippet acc e.text e.isFinal e.freshId e.now) init)
      = true := by
  induction events generalizing init with
  | nil => exact h
  | cons e es ih => exact ih _ (allButLastFinal_mergeSnippet _ _ _ _ _ h)

/-- C5: for every sequence of merge events applied starting from the empty
snippet list, the resulting snippet list has at most one non-final snippet,
and if one exists it is the last element; all preceding snippets are final. -/
theorem merge_events_at_most_one_trailing_nonfinal (events : List LiveEvent) :
    allButLastFinal (applyEvents events) = true :=
  applyEvents_invariant_aux events [] rfl

/-- C7: the merge step never touches any element before the tail, and when
the tail is final (so the tail is never mutated while final) the merge is a
pure append of a fresh snippet, leaving every existing snippet unchanged. -/
theorem merge_frame_property (l : List TranscriptionSnippet) (t : String) (f : Bool)
    (fid : String) (now : Nat) :
    (mergeSnippet l t f fid now).take (l.length - 1) = l.take (l.length - 1) ∧
    (∀ last, l.getLast? = some last → last.isFinal = true →
      mergeSnippet l t f fid now = l ++ [⟨fid, t, now, f⟩]) := by
  rcases l.eq_nil_or_concat with rfl | ⟨as, a, rfl⟩
  · exact ⟨rfl, fun last h => nomatch h⟩
  · rw [List.concat_eq_append]
    have htake : ∀ rest : List TranscriptionSnippet, (as ++ rest).take as.length = as := by
      intro rest
      rw [List.take_append_of_le_length (le_refl as.length), List.take_length]
    have hlen : (as ++ [a]).length - 1 = as.length := by simp
    constructor
    · rw [mergeSnippet_concat, hlen]
      cases hfin : a.isFinal
      · simp only [Bool.false_eq_true, if_false]
        rw [htake, htake]
      · simp only [if_true]
        rw [List.append_assoc, htake, htake]
    · intro last hlast hfin
      rw [List.getLast?_concat] at hlast
      injection hlast with hla
      subst hla
      rw [mergeSnippet_concat, if_pos hfin]

theorem mergeIntoSessions_getElem_ne (bid t : String) (f : Bool) (fid : String)
    (now : Nat) (l : List RecordingSession) (i : Nat) (s : RecordingSession)
    (hs : l[i]? = some s) (hne : s.id ≠ bid) :
    (mergeIntoSessions bid t f fid now l)[i]? = some s := by
  induction l generalizing i with
  | nil => simp at hs
  | cons x xs ih =>
    cases i with
    | zero =>
      rw [List.getElem?_cons_zero] at hs
      injection hs with hxs
      subst hxs
      simp [mergeIntoSessions, if_neg hne]
    | succ j =>
      rw [List.getElem?_cons_succ] at hs
      by_cases hx : x.id = bid
      · simp only [mergeIntoSessions, if_pos hx, List.getElem?_cons_succ]
        exact hs
      · simp only [mergeIntoSessions, if_neg hx, List.getElem?_cons_succ]
        exact ih j hs

theorem mergeIntoSessions_at_found (bid t : String) (f : Bool) (fid : String)
    (now : Nat) (l : List RecordingSession) (idx : Nat)
    (hidx : findIndex (fun s => s.id = bid) l = some idx) :
    (mergeIntoSessions bid t f fid now l)[idx]? =
      Option.map (mergePatch t f fid now) l[idx]? := by
  induction l generalizing idx with
  | nil => simp [findIndex] at hidx
  | cons x xs ih =>
    by_cases hx : x.id = bid
    · have hidx0 : idx = 0 := by
        simp [findIndex, hx] at hidx
        omega
      subst hidx0
      simp only [mergeIntoSessions, if_pos hx, List.getElem?_cons_zero, Option.map_some']
      rfl
    · simp only [findIndex] at hidx
      rw [if_neg (by simpa using hx)] at hidx
      obtain ⟨j, hj, rfl⟩ := Option.map_eq_some'.mp hidx
      simp only [mergeIntoSessions, if_neg hx, List.getElem?_cons_succ]
      exact ih j hj

/-- C3: a live event is merged into the session whose id was bound when the
capture started: the resulting session list does not depend on the active
session pointer, the bound session (at its findIndex position) receives the
merge, and every session with a different id is left unchanged. -/
theorem live_event_lands_on_bound_session (bid t : String) (f : Bool) (fid : String)
    (now : Nat) (st : AppState) (a : Option String) :
    (receiveSnippetEvent bid t f fid now { st with activeSessionId := a }).sessions =
      (receiveSnippetEvent bid t f fid now st).sessions ∧
    (∀ idx, findIndex (fun s => s.id = bid) st.sessions = some idx →
      ((receiveSnippetEvent bid t f fid now st).sessions)[idx]? =
        Option.map (mergePatch t f fid now) st.sessions[idx]?) ∧
    (∀ (i : Nat) (s : RecordingSession), st.sessions[i]? = some s → s.id ≠ bid →
      ((receiveSnippetEvent bid t f fid now st).sessions)[i]? = some s) := by
  refine ⟨rfl, ?_, ?_⟩
  · intro idx hidx
    exact mergeIntoSessions_at_found bid t f fid now st.sessions idx hidx
  · intro i s hs hne
    exact mergeIntoSessions_getElem_ne bid t f fid now st.sessions i s hs hne

/-- Session "a", used in concrete instantiations. -/
def liveA : RecordingSession :=
  { id := "a", name := "A", snippets := [], formattedText := none,
    status := SessionStatus.transcribing, timestamp := 0 }

/-- Session "b", used in concrete instantiations. -/
def liveB : RecordingSession :=
  { id := "b", name := "B", snippets := [], formattedText := none,
    status := SessionStatus.transcribing, timestamp := 0 }

/-- A registry with two sessions, the first one active. -/
def twoSessionState : AppState :=
  { isRecording := true, sessions := [liveA, liveB],
    activeSessionId := some "a", error := none }

/-- Witness for C3: an event bound to session "b" arriving while session "a"
is active leaves session "a" untouched. -/
theorem live_event_lands_on_bound_session_witness :
    ((receiveSnippetEvent "b" "hi" true "f1" 5 twoSessionState).sessions)[0]? =
      some liveA :=
  (live_event_lands_on_bound_session "b" "hi" true "f1" 5 twoSessionState none).2.2
    0 liveA rfl (by decide)

/-- Witness for C7: merging into a list whose last snippet is final appends
a fresh snippet and keeps the existing one unchanged. -/
theorem merge_frame_property_witness :
    mergeSnippet [⟨"a", "x", 0, true⟩] "y" true "b" 1 =
      [⟨"a", "x", 0, true⟩] ++ [⟨"b", "y", 1, true⟩] :=
  (merge_frame_property [⟨"a", "x", 0, true⟩] "y" true "b" 1).2
    ⟨"a", "x", 0, true⟩ rfl rfl

/-- C1: evaluating both removal handlers at a registry `[liveA, liveB]` with
session "a" active and removing "a": the App.tsx delete handler never
touches the pointer, and the part_000 `removeSession` reads the fallback id
from the list before filtering, so in both cases the active pointer remains
the removed id "a" although only session "b" is left in the registry. -/
theorem remove_active_session_dangling_pointer :
    (deleteSessionClick twoSessionState "a").activeSessionId = some "a" ∧
    (deleteSessionClick twoSessionState "a").sessions = [liveB] ∧
    (removeSession twoSessionState "a").activeSessionId = some "a" ∧
    (removeSession twoSessionState "a").sessions = [liveB] ∧
    liveB.id ≠ "a" :=
  ⟨rfl, rfl, rfl, rfl, by decide⟩

/-- A session currently in the `formatting` state. -/
def formattingSession : RecordingSession :=
  { id := "s1", name := "S", snippets := [⟨"1", "hi", 0, true⟩],
    formattedText := none, status := SessionStatus.formatting, timestamp := 0 }

/-- A state whose only session is mid-format. -/
def formattingState : AppState :=
  { isRecording := false, sessions := [formattingSession],
    activeSessionId := some "s1", error := none }

/-- C2 counterexample: invoking `handleSmartFormat` on a session whose
status is already `formatting` is not a no-op: a second external format
call is issued, carrying the session's joined snippet text. -/
theorem second_smart_format_issues_call :
    formattingSession.status = SessionStatus.formatting ∧
    (handleSmartFormatStart "s1" formattingState).2 = some "hi" :=
  ⟨rfl, rfl⟩

/-- C2 (amended): `handleSmartFormat` has no formatting-status guard:
whenever the session id resolves, the call proceeds regardless of the
current status — it sets the status to `formatting` (a no-op when already
formatting) and issues a format call with the space-joined snippet texts;
the invocation is a no-op only when the id is absent from the registry. -/
theorem smart_format_no_status_guard (st : AppState) (sid : String) :
    (findSession st sid = none → handleSmartFormatStart sid st = (st, none)) ∧
    (∀ s : RecordingSession, findSession st sid = some s →
      handleSmartFormatStart sid st =
        (updateSession st sid markFormatting,
         some (joinSpace (s.snippets.map (fun sn => sn.text))))) := by
  constructor
  · intro h
    unfold handleSmartFormatStart
    rw [h]
  · intro s h
    unfold handleSmartFormatStart
    rw [h]

/-- Witness for the amended C2, at a session already in `formatting`. -/
theorem smart_format_no_status_guard_witness :
    handleSmartFormatStart "s1" formattingState =
      (updateSession formattingState "s1" markFormatting,
       some (joinSpace (formattingSession.snippets.map (fun sn => sn.text)))) :=
  (smart_format_no_status_guard formattingState "s1").2 formattingSession rfl

/-- A session whose stored formatted text is the empty string. -/
def blankFormattedSession : RecordingSession :=
  { id := "x", name := "X", snippets := [⟨"1", "hi", 0, true⟩],
    formattedText := some "", status := SessionStatus.completed, timestamp := 0 }

/-- C8 counterexample: with `formattedText` present but equal to the empty
string, the download body is the snippet join, not the formatted text: the
JavaScript `||` in src/App.tsx line 148 treats the empty string as absent. -/
theorem render_content_empty_formatted_text :
    blankFormattedSession.formattedText = some "" ∧
    renderContent blankFormattedSession = "hi" ∧
    renderContent blankFormattedSession ≠ "" :=
  ⟨rfl, rfl, by decide⟩

/-- C8 (amended): the exported content equals `formattedText` whenever it is
present and non-empty, ignoring the snippets; when it is absent — or empty,
which the `||` operator conflates with absent — the content is the snippet
texts joined by newline in their original order. -/
theorem render_content_amended (s : RecordingSession) :
    (∀ t : String, s.formattedText = some t → t ≠ "" → renderContent s = t) ∧
    (s.formattedText = none →
      renderContent s = joinNewline (s.snippets.map (fun sn => sn.text))) ∧
    (s.formattedText = some "" →
      renderContent s = joinNewline (s.snippets.map (fun sn => sn.text))) := by
  unfold renderContent jsOrString
  refine ⟨?_, ?_, ?_⟩
  · intro t ht hne
    rw [ht]
    simp [hne]
  · intro h
    rw [h]
  · intro h
    rw [h]
    simp

/-- Witness for the amended C8: a present non-empty formatted text is
exported as-is, ignoring the snippets. -/
theorem render_content_amended_witness :
    renderContent { id := "x", name := "X", snippets := [⟨"1", "hi", 0, true⟩],
                    formattedText := some "F",
                    status := SessionStatus.completed, timestamp := 0 } = "F" :=
  (render_content_amended _).1 "F" rfl (by decide)

/-- The initial application state, src/App.tsx lines 10-15. -/
def emptyState : AppState :=
  { isRecording := false, sessions := [], activeSessionId := none, error := none }

/-- State of the live-capture scenario after the events ("testing", false)
and (" one", true). -/
def liveScenario2 : AppState :=
  receiveSnippetEvent "live-1" " one" true "r2" 12
    (receiveSnippetEvent "live-1" "testing" false "r1" 11
      (liveStart "live-1" "Voice Note" 10 emptyState))

/-- C6: after the events ("testing", false) and (" one", true) the live
session holds exactly one final snippet with text "testing  one" (two
spaces, from the separating-space concatenation); stopping the capture
sends exactly that text to the formatter, moves the session to
`formatting`, and — when the format call succeeds — to `completed` with
the formatted text stored. -/
theorem live_capture_two_event_scenario (fmt : String → Except Unit String)
    (out : String) (hfmt : fmt "testing  one" = Except.ok out) :
    findSession liveScenario2 "live-1" =
      some { id := "live-1", name := "Voice Note",
             snippets := [⟨"r1", "testing  one", 11, true⟩],
             formattedText := none, status := SessionStatus.transcribing,
             timestamp := 10 } ∧
    (handleSmartFormatStart "live-1" (updateSession liveScenario2 "live-1" markIdle)).2 =
      some "testing  one" ∧
    Option.map (fun s => s.status)
      (findSession
        (handleSmartFormatStart "live-1"
          (updateSession liveScenario2 "live-1" markIdle)).1 "live-1") =
      some SessionStatus.formatting ∧
    findSession (stopRecording fmt liveScenario2) "live-1" =
      some { id := "live-1", name := "Voice Note",
             snippets := [⟨"r1", "testing  one", 11, true⟩],
             formattedText := some out, status := SessionStatus.completed,
             timestamp := 10 } := by
  refine ⟨rfl, rfl, rfl, ?_⟩
  have h1 : stopRecording fmt liveScenario2 =
      { handleSmartFormatFinish "live-1" (fmt "testing  one")
          (updateSession (updateSession liveScenario2 "live-1" markIdle)
            "live-1" markFormatting) with
        isRecording := false } := rfl
  rw [h1, hfmt]
  rfl

/-- Witness for C6 with a format oracle that succeeds. -/
theorem live_capture_two_event_scenario_witness :
    findSession (stopRecording (fun _ => Except.ok "OUT") liveScenario2) "live-1" =
      some { id := "live-1", name := "Voice Note",
             snippets := [⟨"r1", "testing  one", 11, true⟩],
             formattedText := some "OUT", status := SessionStatus.completed,
             timestamp := 10 } :=
  (live_capture_two_event_scenario (fun _ => Except.ok "OUT") "OUT" rfl).2.2.2

theorem mkFileSession_id (fid fname : String) (now : Nat) :
    (mkFileSession fid fname now).id = fid := rfl

theorem markError_id (s : RecordingSession) : (markError s).id = s.id := rfl

theorem completeFileSession_id (raw g : String) (now : Nat) (s : RecordingSession) :
    (completeFileSession raw g now s).id = s.id := rfl

theorem updateSessions_cons (x : RecordingSession) (xs : List RecordingSession)
    (sid : String) (f : RecordingSession → RecordingSession) :
    updateSessions (x :: xs) sid f =
      (if x.id = sid then f x else x) :: updateSessions xs sid f := rfl

theorem updateSessions_not_present (l : List RecordingSession) (sid : String)
    (f : RecordingSession → RecordingSession) (h : ∀ s ∈ l, s.id ≠ sid) :
    updateSessions l sid f = l := by
  induction l with
  | nil => rfl
  | cons x xs ih =>
    have hx : x.id ≠ sid := h x (by simp)
    have hxs := ih (fun s hs => h s (by simp [hs]))
    rw [updateSessions_cons, if_neg hx, hxs]

theorem filter_updateSessions_ne (l : List RecordingSession) (sid tid : String)
    (f : RecordingSession → RecordingSession) (hf : ∀ s, (f s).id = s.id)
    (hne : sid ≠ tid) :
    (updateSessions l sid f).filter (fun s => s.id = tid) =
      l.filter (fun s => s.id = tid) := by
  induction l with
  | nil => rfl
  | cons x xs ih =>
    rw [updateSessions_cons]
    by_cases hx : x.id = sid
    · have h1 : ¬ (f x).id = tid := by
        rw [hf x, hx]
        exact hne
      have h2 : ¬ x.id = tid := by
        rw [hx]
        exact hne
      rw [if_pos hx]
      simp only [List.filter_cons]
      rw [if_neg (by simpa using h1), if_neg (by simpa using h2)]
      exact ih
    · rw [if_neg hx]
      simp only [List.filter_cons]
      rw [ih]

theorem filter_updateSessions_eq (l : List RecordingSession) (sid : String)
    (f : RecordingSession → RecordingSession) (hf : ∀ s, (f s).id = s.id) :
    (updateSessions l sid f).filter (fun s => s.id = sid) =
      (l.filter (fun s => s.id = sid)).map f := by
  induction l with
  | nil => rfl
  | cons x xs ih =>
    rw [updateSessions_cons]
    by_cases hx : x.id = sid
    · have h1 : (f x).id = sid := by rw [hf x, hx]
      rw [if_pos hx]
      simp only [List.filter_cons]
      rw [if_pos (by simpa using h1), if_pos (by simpa using hx), List.map_cons, ih]
    · rw [if_neg hx]
      have hd : ¬ (decide (x.id = sid) = true) := by simpa using hx
      simp only [List.filter_cons, if_neg hd]
      exact ih

theorem sessionsWithId_processFileStep_ne (tr : FileInput → Except Unit String)
    (fm : String → Except Unit String) (now : Nat) (sid : String) (file : FileInput)
    (st : AppState) (tid : String) (hne : sid ≠ tid) :
    sessionsWithId (processFileStep tr fm now sid file st) tid =
      sessionsWithId st tid := by
  cases htr : tr file with
  | error e =>
    simp only [processFileStep, htr]
    exact filter_updateSessions_ne st.sessions sid tid markError (fun s => rfl) hne
  | ok raw =>
    cases hfm : fm raw with
    | error e =>
      simp only [processFileStep, htr, hfm]
      exact filter_updateSessions_ne st.sessions sid tid markError (fun s => rfl) hne
    | ok g =>
      simp only [processFileStep, htr, hfm]
      exact filter_updateSessions_ne st.sessions sid tid
        (completeFileSession raw g now) (fun s => rfl) hne

theorem sessionsWithId_processFileStep_ok (tr : FileInput → Except Unit String)
    (fm : String → Except Unit String) (now : Nat) (sid : String) (file : FileInput)
    (st : AppState) (raw g : String)
    (htr : tr file = Except.ok raw) (hfm : fm raw = Except.ok g) :
    sessionsWithId (processFileStep tr fm now sid file st) sid =
      (sessionsWithId st sid).map (completeFileSession raw g now) := by
  simp only [processFileStep, htr, hfm]
  exact filter_updateSessions_eq st.sessions sid (completeFileSession raw g now) (fun s => rfl)

theorem processFilesLoop_frame (tr : FileInput → Except Unit String)
    (fm : String → Except Unit String) (now : Nat) (ids : Nat → String)
    (fs : List FileInput) (j : Nat) (st : AppState) (tid : String)
    (h : ∀ k, k < fs.length → ids (j + k) ≠ tid) :
    sessionsWithId (processFilesLoop tr fm now ids j fs st) tid =
      sessionsWithId st tid := by
  induction fs generalizing j st with
  | nil => rfl
  | cons f fs ih =>
    have h0 : ids j ≠ tid := by simpa using h 0 (by simp)
    have hrest : ∀ k, k < fs.length → ids (j + 1 + k) ≠ tid := by
      intro k hk
      have hx := h (k + 1) (by simpa using Nat.succ_lt_succ hk)
      rwa [show j + (k + 1) = j + 1 + k by omega] at hx
    calc sessionsWithId
          (processFilesLoop tr fm now ids (j + 1) fs
            (processFileStep tr fm now (ids j) f st)) tid
        = sessionsWithId (processFileStep tr fm now (ids j) f st) tid :=
          ih (j + 1) _ hrest
      _ = sessionsWithId st tid :=
          sessionsWithId_processFileStep_ne tr fm now (ids j) f st tid h0

theorem processFilesLoop_append (tr : FileInput → Except Unit String)
    (fm : String → Except Unit String) (now : Nat) (ids : Nat → String)
    (as bs : List FileInput) (j : Nat) (st : AppState) :
    processFilesLoop tr fm now ids j (as ++ bs) st =
      processFilesLoop tr fm now ids (j + as.length) bs
        (processFilesLoop tr fm now ids j as st) := by
  induction as generalizing j st with
  | nil => rfl
  | cons a as ih =>
    show processFilesLoop tr fm now ids (j + 1) (as ++ bs)
        (processFileStep tr fm now (ids j) a st) = _
    rw [ih (j + 1), show j + (a :: as).length = j + 1 + as.length by simp; omega]
    rfl

theorem mkFileSessions_append (ids : Nat → String) (now : Nat)
    (as bs : List FileInput) (j : Nat) :
    mkFileSessions ids now j (as ++ bs) =
      mkFileSessions ids now j as ++ mkFileSessions ids now (j + as.length) bs := by
  induction as generalizing j with
  | nil => rfl
  | cons a as ih =>
    show mkFileSession (ids j) a.name now :: mkFileSessions ids now (j + 1) (as ++ bs) = _
    rw [ih (j + 1), show j + (a :: as).length = j + 1 + as.length by simp; omega]
    rfl

theorem mkFileSessions_filter_ne (ids : Nat → String) (now : Nat)
    (fs : List FileInput) (j : Nat) (tid : String)
    (h : ∀ k, k < fs.length → ids (j + k) ≠ tid) :
    (mkFileSessions ids now j fs).filter (fun s => s.id = tid) = [] := by
  induction fs generalizing j with
  | nil => rfl
  | cons f fs ih =>
    have h0 : ids j ≠ tid := by simpa using h 0 (by simp)
    have hrest : ∀ k, k < fs.length → ids (j + 1 + k) ≠ tid := by
      intro k hk
      have hx := h (k + 1) (by simpa using Nat.succ_lt_succ hk)
      rwa [show j + (k + 1) = j + 1 + k by omega] at hx
    show (mkFileSession (ids j) f.name now :: mkFileSessions ids now (j + 1) fs).filter
        (fun s => s.id = tid) = []
    simp only [List.filter_cons]
    rw [if_neg (by simpa [mkFileSession_id] using h0)]
    exact ih (j + 1) hrest

theorem processFiles_eq_of_ne_nil (ids : Nat → String)
    (tr : FileInput → Except Unit String) (fm : String → Except Unit String)
    (now : Nat) (files : List FileInput) (st : AppState) (h : files ≠ []) :
    processFiles ids tr fm now files st =
      some (processFilesLoop tr fm now ids 0 files
        { st with sessions := mkFileSessions ids now 0 files ++ st.sessions,
                  activeSessionId := some (ids 0) }) := by
  cases files with
  | nil => exact absurd rfl h
  | cons f0 fs => rfl

/-- C10: `processFiles` invoked with an empty file list dereferences the
first element of the empty freshly-built session array (`sessions[0].id`)
and throws — modeled as `none`, producing no state at all — while any
non-empty file list does produce a state. -/
theorem process_files_empty_list_throws (ids : Nat → String)
    (tr : FileInput → Except Unit String) (fm : String → Except Unit String)
    (now : Nat) (st : AppState) :
    processFiles ids tr fm now [] st = none ∧
    (∀ files : List FileInput, files ≠ [] →
      (processFiles ids tr fm now files st).isSome = true) := by
  refine ⟨rfl, ?_⟩
  intro files hf
  cases files with
  | nil => exact absurd rfl hf
  | cons f0 fs =>
    rw [processFiles_eq_of_ne_nil ids tr fm now (f0 :: fs) st (by simp)]
    rfl

/-- The transcription oracle used in concrete runs: always succeeds. -/
def alwaysTranscribe : FileInput → Except Unit String :=
  fun _ => Except.ok "Hello there."

/-- A format oracle that always fails. -/
def failingFormat : String → Except Unit String := fun _ => Except.error ()

/-- A format oracle that always succeeds. -/
def okFormat : String → Except Unit String := fun _ => Except.ok "OUT"

/-- Two distinct fresh ids for two files. -/
def twoIds : Nat → String := fun j => if j = 0 then "fa" else "fb"

/-- A first sample uploaded file. -/
def fileA : FileInput := ⟨"a.mp3", "audio/mpeg"⟩

/-- A second sample uploaded file. -/
def fileB : FileInput := ⟨"b.mp3", "audio/mpeg"⟩

/-- Witness for C10: a singleton file list produces a state. -/
theorem process_files_empty_list_throws_witness :
    (processFiles twoIds alwaysTranscribe okFormat 7 [fileA] emptyState).isSome = true :=
  (process_files_empty_list_throws twoIds alwaysTranscribe okFormat 7 emptyState).2
    [fileA] (by simp)

/-- C4 counterexample: a file whose transcribe call succeeds but whose
format call fails ends with an EMPTY snippet list (and status `error`):
src/App.tsx lines 121-127 store the single raw snippet in one update after
BOTH awaits, so the raw snippet is never stored when formatting throws. -/
theorem file_transcribe_ok_format_fail_no_snippet :
    alwaysTranscribe fileA = Except.ok "Hello there." ∧
    processFiles (fun _ => "fid") alwaysTranscribe failingFormat 7 [fileA] emptyState =
      some { isRecording := false,
             sessions := [{ id := "fid", name := "a.mp3", snippets := [],
                            formattedText := none, status := SessionStatus.error,
                            timestamp := 7 }],
             activeSessionId := some "fid", error := none } :=
  ⟨rfl, rfl⟩

/-- C4 (amended): for every file whose transcribe call AND subsequent format
call both succeed, the session ends with exactly one snippet holding the
full raw transcription, marked final (together with the formatted text and
`completed` status); when the format call fails the snippet list stays
empty, since the code stores the snippet only after both awaits succeed. -/
theorem file_pipeline_single_final_snippet (ids : Nat → String)
    (tr : FileInput → Except Unit String) (fm : String → Except Unit String)
    (now : Nat) (pre post : List FileInput) (f : FileInput) (st : AppState)
    (raw g : String)
    (hids : ∀ j : Nat, j ≠ pre.length → ids j ≠ ids pre.length)
    (hfresh : ∀ s ∈ st.sessions, s.id ≠ ids pre.length)
    (htr : tr f = Except.ok raw) (hfm : fm raw = Except.ok g) :
    ∃ st2, processFiles ids tr fm now (pre ++ f :: post) st = some st2 ∧
      sessionsWithId st2 (ids pre.length) =
        [completeFileSession raw g now
          (mkFileSession (ids pre.length) f.name now)] := by
  rw [processFiles_eq_of_ne_nil ids tr fm now (pre ++ f :: post) st (by simp)]
  refine ⟨_, rfl, ?_⟩
  rw [processFilesLoop_append, Nat.zero_add]
  show sessionsWithId
      (processFilesLoop tr fm now ids (pre.length + 1) post
        (processFileStep tr fm now (ids pre.length) f
          (processFilesLoop tr fm now ids 0 pre _))) (ids pre.length) = _
  rw [processFilesLoop_frame tr fm now ids post (pre.length + 1) _ (ids pre.length)
        (fun k hk => hids (pre.length + 1 + k) (by omega)),
      sessionsWithId_processFileStep_ok tr fm now (ids pre.length) f _ raw g htr hfm,
      processFilesLoop_frame tr fm now ids pre 0 _ (ids pre.length)
        (fun k hk => hids (0 + k) (by omega))]
  have hinit : sessionsWithId
      { st with sessions := mkFileSessions ids now 0 (pre ++ f :: post) ++ st.sessions,
                activeSessionId := some (ids 0) } (ids pre.length) =
      [mkFileSession (ids pre.length) f.name now] := by
    unfold sessionsWithId
    rw [show ({ st with
          sessions := mkFileSessions ids now 0 (pre ++ f :: post) ++ st.sessions,
          activeSessionId := some (ids 0) } : AppState).sessions =
        mkFileSessions ids now 0 (pre ++ f :: post) ++ st.sessions from rfl]
    rw [List.filter_append, mkFileSessions_append, List.filter_append, Nat.zero_add]
    rw [mkFileSessions_filter_ne ids now pre 0 (ids pre.length)
          (fun k hk => hids (0 + k) (by omega))]
    have hold : st.sessions.filter (fun s => s.id = ids pre.length) = [] :=
      List.filter_eq_nil_iff.mpr (fun s hs => by simpa using hfresh s hs)
    rw [hold, List.append_nil, List.nil_append]
    show (mkFileSession (ids pre.length) f.name now ::
        mkFileSessions ids now (pre.length + 1) post).filter
        (fun s => s.id = ids pre.length) = _
    simp only [List.filter_cons]
    rw [if_pos (by simp [mkFileSession_id]),
        mkFileSessions_filter_ne ids now post (pre.length + 1) (ids pre.length)
          (fun k hk => hids (pre.length + 1 + k) (by omega))]
  rw [hinit]
  rfl

/-- Witness for the amended C4: one uploaded file, transcribe and format
both succeed. -/
theorem file_pipeline_single_final_snippet_witness :
    ∃ st2, processFiles twoIds alwaysTranscribe okFormat 7 [fileA] emptyState =
        some st2 ∧
      sessionsWithId st2 (twoIds 0) =
        [completeFileSession "Hello there." "OUT" 7
          (mkFileSession (twoIds 0) fileA.name 7)] :=
  file_pipeline_single_final_snippet twoIds alwaysTranscribe okFormat 7 [] [] fileA
    emptyState "Hello there." "OUT"
    (fun j hj => by
      simp only [List.length_nil] at hj ⊢
      simp only [twoIds, if_neg hj, if_pos rfl]
      decide)
    (fun s hs => absurd hs (List.not_mem_nil s))
    rfl rfl

theorem updateSessions_cons_cons_first (a b : RecordingSession)
    (old : List RecordingSession) (sid : String)
    (f : RecordingSession → RecordingSession) (ha : a.id = sid) (hb : b.id ≠ sid)
    (hold : ∀ s ∈ old, s.id ≠ sid) :
    updateSessions (a :: b :: old) sid f = f a :: b :: old := by
  rw [updateSessions_cons, updateSessions_cons, if_pos ha, if_neg hb,
      updateSessions_not_present old sid f hold]

theorem updateSessions_cons_cons_second (a b : RecordingSession)
    (old : List RecordingSession) (sid : String)
    (f : RecordingSession → RecordingSession) (ha : a.id ≠ sid) (hb : b.id = sid)
    (hold : ∀ s ∈ old, s.id ≠ sid) :
    updateSessions (a :: b :: old) sid f = a :: f b :: old := by
  rw [updateSessions_cons, updateSessions_cons, if_neg ha, if_pos hb,
      updateSessions_not_present old sid f hold]

/-- C9: uploading two files of which exactly one fails yields exactly one
session in `error` and one in `completed` — whichever of the two files
fails — with the sibling file's session completed normally and every
pre-existing session left untouched. -/
theorem batch_file_failure_isolated (ids : Nat → String)
    (tr : FileInput → Except Unit String) (fm : String → Except Unit String)
    (now : Nat) (f1 f2 : FileInput) (st : AppState)
    (hids : ids 0 ≠ ids 1)
    (hfresh : ∀ s ∈ st.sessions, s.id ≠ ids 0 ∧ s.id ≠ ids 1) :
    (∀ r g, tr f1 = Except.error () → tr f2 = Except.ok r → fm r = Except.ok g →
      processFiles ids tr fm now [f1, f2] st =
        some { st with
          sessions :=
            markError (mkFileSession (ids 0) f1.name now) ::
            completeFileSession r g now (mkFileSession (ids 1) f2.name now) ::
            st.sessions,
          activeSessionId := some (ids 0) }) ∧
    (∀ r g, tr f1 = Except.ok r → fm r = Except.ok g → tr f2 = Except.error () →
      processFiles ids tr fm now [f1, f2] st =
        some { st with
          sessions :=
            completeFileSession r g now (mkFileSession (ids 0) f1.name now) ::
            markError (mkFileSession (ids 1) f2.name now) ::
            st.sessions,
          activeSessionId := some (ids 0) }) := by
  have h01 : ids 1 ≠ ids 0 := Ne.symm hids
  have hf0 : ∀ s ∈ st.sessions, s.id ≠ ids 0 := fun s hs => (hfresh s hs).1
  have hf1 : ∀ s ∈ st.sessions, s.id ≠ ids 1 := fun s hs => (hfresh s hs).2
  constructor
  · intro r g htr1 htr2 hfm
    rw [processFiles_eq_of_ne_nil ids tr fm now [f1, f2] st (by simp)]
    show some (processFileStep tr fm now (ids 1) f2
        (processFileStep tr fm now (ids 0) f1
          { st with
            sessions := mkFileSession (ids 0) f1.name now ::
              mkFileSession (ids 1) f2.name now :: st.sessions,
            activeSessionId := some (ids 0) })) = _
    simp only [processFileStep, htr1, htr2, hfm]
    show some { st with
        sessions := updateSessions (updateSessions
          (mkFileSession (ids 0) f1.name now ::
            mkFileSession (ids 1) f2.name now :: st.sessions)
          (ids 0) markError) (ids 1) (completeFileSession r g now),
        activeSessionId := some (ids 0) } = _
    rw [updateSessions_cons_cons_first (mkFileSession (ids 0) f1.name now)
          (mkFileSession (ids 1) f2.name now) st.sessions (ids 0) markError
          (show (mkFileSession (ids 0) f1.name now).id = ids 0 from rfl)
          (show (mkFileSession (ids 1) f2.name now).id ≠ ids 0 from h01) hf0,
        updateSessions_cons_cons_second (markError (mkFileSession (ids 0) f1.name now))
          (mkFileSession (ids 1) f2.name now) st.sessions (ids 1)
          (completeFileSession r g now)
          (show (markError (mkFileSession (ids 0) f1.name now)).id ≠ ids 1 from hids)
          (show (mkFileSession (ids 1) f2.name now).id = ids 1 from rfl) hf1]
  · intro r g htr1 hfm htr2
    rw [processFiles_eq_of_ne_nil ids tr fm now [f1, f2] st (by simp)]
    show some (processFileStep tr fm now (ids 1) f2
        (processFileStep tr fm now (ids 0) f1
          { st with
            sessions := mkFileSession (ids 0) f1.name now ::
              mkFileSession (ids 1) f2.name now :: st.sessions,
            activeSessionId := some (ids 0) })) = _
    simp only [processFileStep, htr1, htr2, hfm]
    show some { st with
        sessions := updateSessions (updateSessions
          (mkFileSession (ids 0) f1.name now ::
            mkFileSession (ids 1) f2.name now :: st.sessions)
          (ids 0) (completeFileSession r g now)) (ids 1) markError,
        activeSessionId := some (ids 0) } = _
    rw [updateSessions_cons_cons_first (mkFileSession (ids 0) f1.name now)
          (mkFileSession (ids 1) f2.name now) st.sessions (ids 0)
          (completeFileSession r g now)
          (show (mkFileSession (ids 0) f1.name now).id = ids 0 from rfl)
          (show (mkFileSession (ids 1) f2.name now).id ≠ ids 0 from h01) hf0,
        updateSessions_cons_cons_second
          (completeFileSession r g now (mkFileSession (ids 0) f1.name now))
          (mkFileSession (ids 1) f2.name now) st.sessions (ids 1) markError
          (show (completeFileSession r g now
            (mkFileSession (ids 0) f1.name now)).id ≠ ids 1 from hids)
          (show (mkFileSession (ids 1) f2.name now).id = ids 1 from rfl) hf1]

/-- A transcription oracle that fails exactly on file "a.mp3". -/
def failOnFileA : FileInput → Except Unit String :=
  fun f => if f.name = "a.mp3" then Except.error () else Except.ok "raw"

/-- Witness for C9: files [fileA, fileB] where fileA's transcribe call fails
and fileB succeeds end as one `error` session and one `completed` session. -/
theorem batch_file_failure_isolated_witness :
    processFiles twoIds failOnFileA okFormat 7 [fileA, fileB] emptyState =
      some { emptyState with
        sessions :=
          markError (mkFileSession (twoIds 0) fileA.name 7) ::
          completeFileSession "raw" "OUT" 7 (mkFileSession (twoIds 1) fileB.name 7) ::
          emptyState.sessions,
        activeSessionId := some (twoIds 0) } :=
  (batch_file_failure_isolated twoIds failOnFileA okFormat 7 fileA fileB emptyState
    (by decide) (fun s hs => absurd hs (List.not_mem_nil s))).1
    "raw" "OUT" rfl rfl rfl

end VocalCanvas
